import Mathlib

/-!
A shallow embedding of the data-access layer in `database_operations.py`
(class `DatabaseOperations`) over the `farmer_crm` relational store.

Modelling conventions:
* The store is a `DB` value: one list of rows per table, plus the serial
  counter (`next_id`) used for `RETURNING id` of inserts and the store
  clock (`now`) used for `CURRENT_TIMESTAMP`.
* Python strings are Lean `String`s; Python string operations (`len`,
  slicing `s[:n]`, `str.strip`, `str.lower`) act on code points, so they
  are embedded through `String.data : List Char`.
* Python truthiness on optional strings (`if row[i]`, `x or y`) is
  `pyTruthy` / `pyOr`: both `None` and `""` are falsy.
* SQL `ORDER BY` is embedded as `List.insertionSort` (a stable sort; the
  source's ordering on equal keys is unspecified, so any stable order
  realises it).  Text ordering is code-point lexicographic (C collation);
  `ORDER BY` on a nullable column places NULLs last, PostgreSQL's default
  for ascending order.
* `DISTINCT ON (farmer_id) ... ORDER BY farmer_id, timestamp DESC` is
  embedded as: sort by the lexicographic key, then keep the first row of
  each `farmer_id` group (`distinctOnFarmer`).
* Each operation wraps its body in `try/except`, returning a sentinel
  when the store raises.  The raised-or-not outcome is an explicit
  argument: `fail : Bool` for single-statement operations, and
  `SaveOutcome` for `save_conversation`, whose body runs two `INSERT`
  statements and a `COMMIT`; an exception at any of those points makes
  the session roll back the uncommitted work when the `with` block
  closes it, so the store is left unchanged.
-/

namespace DatabaseOps

/-- Row of the `farmers` table (columns read by the layer). -/
structure FarmerRow where
  id : Nat
  farm_name : Option String
  manager_name : Option String
  manager_last_name : Option String
  email : Option String
  phone : Option String
  city : Option String
  wa_phone_number : Option String
deriving Repr, DecidableEq

/-- A calendar date as stored in a `date` column. -/
structure Date where
  year : Nat
  month : Nat
  day : Nat
deriving Repr, DecidableEq

/-- Row of the `fields` table. -/
structure FieldRow where
  field_id : Nat
  farmer_id : Nat
  field_name : String
  field_size : Option Rat
  field_location : Option String
  soil_type : Option String
deriving Repr, DecidableEq

/-- Row of the `field_crops` table. -/
structure FieldCropRow where
  field_id : Nat
  crop_name : String
  variety : Option String
  planting_date : Option Date
  status : String
deriving Repr, DecidableEq

/-- Row of the `incoming_messages` table. -/
structure MessageRow where
  id : Nat
  farmer_id : Nat
  phone_number : String
  message_text : Option String
  role : String
  timestamp : Nat
deriving Repr, DecidableEq

/-- Row of the `crop_technology` reference table. -/
structure CropTechRow where
  crop_type : String
deriving Repr, DecidableEq

/-- The relational store: one list per table, the serial id counter for
`incoming_messages`, and the store clock for `CURRENT_TIMESTAMP`. -/
structure DB where
  farmers : List FarmerRow
  fields : List FieldRow
  field_crops : List FieldCropRow
  messages : List MessageRow
  crop_technology : List CropTechRow
  next_id : Nat
  now : Nat
deriving Repr, DecidableEq

/-! ### Python string / truthiness semantics -/

/-- Python truthiness of an optional string: `None` and `""` are falsy. -/
def pyTruthy : Option String → Bool
  | none => false
  | some s => !(s == "")

/-- Python `x or d` on an optional string. -/
def pyOr (o : Option String) (d : String) : String :=
  if pyTruthy o then o.getD "" else d

/-- Python `len` on a string (number of code points). -/
def pyLen (s : String) : Nat := s.data.length

/-- Python slice `s[:n]` (first `n` code points). -/
def pySlice (s : String) (n : Nat) : String := ⟨s.data.take n⟩

/-- Python `str.strip()`: drop leading and trailing whitespace. -/
def pyStrip (s : String) : String :=
  ⟨((s.data.dropWhile Char.isWhitespace).reverse.dropWhile Char.isWhitespace).reverse⟩

/-- SQL `LOWER` / Python `str.lower` (per code point). -/
def strLower (s : String) : String := ⟨s.data.map Char.toLower⟩

/-- Python truthiness of an optional numeric value: `None` and `0` are falsy. -/
def pyNumTruthy : Option Rat → Bool
  | none => false
  | some v => !(v == 0)

/-- Display name used throughout the layer:
Python `f"{first} {last}".strip() if first and last else "Unknown"`. -/
def displayName (mn ml : Option String) : String :=
  if pyTruthy mn && pyTruthy ml then pyStrip ((mn.getD "") ++ " " ++ (ml.getD ""))
  else "Unknown"

/-- Message-text truncation of the approval queue:
Python `t[:100] + "..." if t and len(t) > 100 else t or ""`. -/
def truncMsg (t : Option String) : String :=
  if pyTruthy t && Nat.blt 100 (pyLen (t.getD "")) then pySlice (t.getD "") 100 ++ "..."
  else pyOr t ""

/-- ISO rendering of a date (`date.isoformat()`): zero-padded `YYYY-MM-DD`. -/
def pad2 (n : Nat) : String := if n < 10 then "0" ++ toString n else toString n

/-- Zero-pad a year to four digits. -/
def pad4 (n : Nat) : String :=
  if n < 10 then "000" ++ toString n
  else if n < 100 then "00" ++ toString n
  else if n < 1000 then "0" ++ toString n
  else toString n

/-- Python `date.isoformat()`. -/
def Date.isoformat (d : Date) : String :=
  pad4 d.year ++ "-" ++ pad2 d.month ++ "-" ++ pad2 d.day

/-- Python `dict.get(k)` over the keyword arguments of a statement:
the conversation payload is a string-keyed mapping. -/
def lookupKey (d : List (String × String)) (k : String) : Option String :=
  (d.find? (fun p => p.1 == k)).map (fun p => p.2)

/-! ### Text and key orderings used by ORDER BY -/

/-- Code-point lexicographic comparison of character lists (C collation). -/
def lexLeChars : List Char → List Char → Bool
  | [], _ => true
  | _ :: _, [] => false
  | a :: as, b :: bs =>
    if a.toNat < b.toNat then true
    else if b.toNat < a.toNat then false
    else lexLeChars as bs

/-- Text ordering for `ORDER BY` on a text column. -/
def strLe (a b : String) : Prop := lexLeChars a.data b.data = true

instance : DecidableRel strLe := fun a b => by unfold strLe; infer_instance

/-- `ORDER BY` key on a nullable text column: NULLs sort last (the
PostgreSQL default for ascending order). -/
def nullsLastLe : Option String → Option String → Prop
  | some a, some b => strLe a b
  | some _, none => True
  | none, some _ => False
  | none, none => True

instance : DecidableRel nullsLastLe := fun a b => by
  cases a <;> cases b <;> unfold nullsLastLe <;> infer_instance

/-- `ORDER BY farm_name` on `farmers`. -/
def farmNameLe (a b : FarmerRow) : Prop := nullsLastLe a.farm_name b.farm_name

instance : DecidableRel farmNameLe := fun a b => by unfold farmNameLe; infer_instance

/-- `ORDER BY f.field_name` on `fields`. -/
def fieldNameLe (a b : FieldRow) : Prop := strLe a.field_name b.field_name

instance : DecidableRel fieldNameLe := fun a b => by unfold fieldNameLe; infer_instance

/-- `ORDER BY timestamp DESC` on messages. -/
def recentTsLe (a b : MessageRow) : Prop := b.timestamp ≤ a.timestamp

instance : DecidableRel recentTsLe := fun a b => by unfold recentTsLe; infer_instance

/-- `ORDER BY farmer_id, m.timestamp DESC` inside the approval-queue CTE. -/
def latestLex (a b : MessageRow × FarmerRow) : Prop :=
  a.1.farmer_id < b.1.farmer_id ∨ (a.1.farmer_id = b.1.farmer_id ∧ b.1.timestamp ≤ a.1.timestamp)

instance : DecidableRel latestLex := fun a b => by unfold latestLex; infer_instance

/-- `ORDER BY timestamp DESC` over the approval-queue CTE rows. -/
def queueTsLe (a b : MessageRow × FarmerRow) : Prop := b.1.timestamp ≤ a.1.timestamp

instance : DecidableRel queueTsLe := fun a b => by unfold queueTsLe; infer_instance

/-! ### Result shapes -/

/-- Result of `get_farmer_info`. -/
structure FarmerInfo where
  id : Nat
  farm_name : Option String
  manager_name : Option String
  manager_last_name : Option String
  total_hectares : Nat
  farmer_type : String
  city : Option String
  wa_phone_number : Option String
deriving Repr, DecidableEq

/-- Entry of `get_all_farmers`. -/
structure FarmerSummary where
  id : Nat
  name : String
  farm_name : String
  phone : String
  location : String
  farm_type : String
  total_size_ha : Rat
deriving Repr, DecidableEq

/-- Entry of `get_farmer_fields`. -/
structure FieldView where
  field_id : Nat
  field_name : String
  field_size : Rat
  field_location : Option String
  soil_type : Option String
  current_crop : Option String
  variety : Option String
  planting_date : Option String
  crop_status : Option String
deriving Repr, DecidableEq

/-- Entry of `get_recent_conversations`.  The `user_input` / `ava_response`
slots hold either the (possibly NULL) message text or the literal `""`,
so they are optional strings with `some ""` as the empty slot. -/
structure Turn where
  id : Nat
  user_input : Option String
  ava_response : Option String
  timestamp : Nat
  message_type : String
  confidence_score : Rat
  approved_status : Bool
deriving Repr, DecidableEq

/-- Result of `get_crop_info`. -/
structure CropInfo where
  id : Nat
  crop_name : String
  croatian_name : String
  category : String
  planting_season : String
  harvest_season : String
  description : String
deriving Repr, DecidableEq

/-- Entry of the approval queue. -/
structure ApprovalEntry where
  id : Nat
  farmer_id : Nat
  farmer_name : String
  farmer_phone : String
  farmer_location : String
  farmer_type : String
  farmer_size : String
  last_message : String
  timestamp : Nat
deriving Repr, DecidableEq

/-- Result of `get_conversations_for_approval`. -/
structure ApprovalBuckets where
  unapproved : List ApprovalEntry
  approved : List ApprovalEntry
deriving Repr, DecidableEq

/-- Result of `get_conversation_details`. -/
structure DetailView where
  id : Nat
  farmer_id : Nat
  farmer_name : String
  user_input : Option String
  ava_response : Option String
  timestamp : Nat
  approved_status : Bool
deriving Repr, DecidableEq

/-! ### Operations -/

/-- `get_farmer_info(farmer_id)`: single-row lookup by primary key,
normalised with the placeholder `total_hectares` / `farmer_type` fields;
`fail` models an exception raised by the store (the `except` branch
returns `None`). -/
def get_farmer_info (db : DB) (farmer_id : Nat) (fail : Bool) : Option FarmerInfo :=
  if fail then none else
  match db.farmers.find? (fun f => f.id == farmer_id) with
  | some r => some
      { id := r.id
        farm_name := r.farm_name
        manager_name := r.manager_name
        manager_last_name := r.manager_last_name
        total_hectares := 0
        farmer_type := "Farm"
        city := r.city
        wa_phone_number := r.wa_phone_number }
  | none => none

/-- Row-to-summary mapping of `get_all_farmers`. -/
def mkFarmerSummary (r : FarmerRow) : FarmerSummary :=
  { id := r.id
    name := displayName r.manager_name r.manager_last_name
    farm_name := pyOr r.farm_name "Unknown Farm"
    phone := if pyTruthy r.phone then r.phone.getD "" else pyOr r.wa_phone_number ""
    location := pyOr r.city ""
    farm_type := "Farm"
    total_size_ha := 0 }

/-- The rows selected by `get_all_farmers`:
`SELECT ... FROM farmers ORDER BY farm_name LIMIT :limit`. -/
def selectedFarmers (db : DB) (limit : Nat) : List FarmerRow :=
  (List.insertionSort farmNameLe db.farmers).take limit

/-- `get_all_farmers(limit)`. -/
def get_all_farmers (db : DB) (limit : Nat) (fail : Bool) : List FarmerSummary :=
  if fail then [] else (selectedFarmers db limit).map mkFarmerSummary

/-- The `LEFT JOIN field_crops ... AND fc.status = 'active'` match set
for one field. -/
def activeCrops (db : DB) (fid : Nat) : List FieldCropRow :=
  db.field_crops.filter (fun fc => fc.field_id == fid && fc.status == "active")

/-- Row mapping of `get_farmer_fields`; `fc = none` is the NULL-extended
side of the left join. -/
def mkFieldView (f : FieldRow) (fc : Option FieldCropRow) : FieldView :=
  { field_id := f.field_id
    field_name := f.field_name
    field_size := if pyNumTruthy f.field_size then f.field_size.getD 0 else 0
    field_location := f.field_location
    soil_type := f.soil_type
    current_crop := fc.map (fun c => c.crop_name)
    variety := fc.bind (fun c => c.variety)
    planting_date := (fc.bind (fun c => c.planting_date)).map Date.isoformat
    crop_status := fc.map (fun c => c.status) }

/-- `get_farmer_fields(farmer_id)`: fields of the farmer left-joined to
their active plantings, ordered by field name. -/
def get_farmer_fields (db : DB) (farmer_id : Nat) (fail : Bool) : List FieldView :=
  if fail then [] else
  (List.insertionSort fieldNameLe (db.fields.filter (fun f => f.farmer_id == farmer_id))).flatMap
    (fun f =>
      match activeCrops db f.field_id with
      | [] => [mkFieldView f none]
      | cs => cs.map (fun c => mkFieldView f (some c)))

/-- The fixed confidence placeholder `0.8` attached to every turn,
given in normalised form `4/5`. -/
def confidencePlaceholder : Rat := ⟨4, 5, by decide, by norm_num⟩

/-- Row-to-turn mapping of `get_recent_conversations`. -/
def mkTurn (m : MessageRow) : Turn :=
  { id := m.id
    user_input := if m.role == "user" then m.message_text else some ""
    ava_response := if m.role == "assistant" then m.message_text else some ""
    timestamp := m.timestamp
    message_type := "chat"
    confidence_score := confidencePlaceholder
    approved_status := false }

/-- `get_recent_conversations(farmer_id, limit)`. -/
def get_recent_conversations (db : DB) (farmer_id limit : Nat) (fail : Bool) : List Turn :=
  if fail then [] else
  ((List.insertionSort recentTsLe
      (db.messages.filter (fun m => m.farmer_id == farmer_id))).take limit).map mkTurn

/-- Where the body of `save_conversation` stops: it either reaches the
commit, or the store raises at the first insert, the second insert, or
the commit itself. -/
inductive SaveOutcome where
  | committed
  | failFirstInsert
  | failSecondInsert
  | failCommit
deriving Repr, DecidableEq

/-- `save_conversation(farmer_id, conversation_data)`: two inserts into
`incoming_messages` (role `user` then role `assistant`) followed by one
commit; returns the id of the assistant row.  On any failure the session
context rolls the uncommitted transaction back, so the store is
unchanged and the operation returns `None`. -/
def save_conversation (db : DB) (farmer_id : Nat) (conversation_data : List (String × String))
    (outcome : SaveOutcome) : DB × Option Nat :=
  let phone := (lookupKey conversation_data "wa_phone_number").getD "unknown"
  match outcome with
  | .failFirstInsert => (db, none)
  | .failSecondInsert => (db, none)
  | .failCommit => (db, none)
  | .committed =>
    let m1 : MessageRow :=
      { id := db.next_id
        farmer_id := farmer_id
        phone_number := phone
        message_text := lookupKey conversation_data "question"
        role := "user"
        timestamp := db.now }
    let m2 : MessageRow :=
      { id := db.next_id + 1
        farmer_id := farmer_id
        phone_number := phone
        message_text := lookupKey conversation_data "answer"
        role := "assistant"
        timestamp := db.now }
    ({ db with messages := db.messages ++ [m1, m2], next_id := db.next_id + 2 }, some m2.id)

/-- `get_crop_info(crop_name)`: case-insensitive lookup in
`crop_technology`. -/
def get_crop_info (db : DB) (crop_name : String) (fail : Bool) : Option CropInfo :=
  if fail then none else
  match db.crop_technology.find? (fun r => strLower r.crop_type == strLower crop_name) with
  | some r => some
      { id := 1
        crop_name := r.crop_type
        croatian_name := r.crop_type
        category := "Crop"
        planting_season := "Spring"
        harvest_season := "Fall"
        description := "Information about " ++ r.crop_type }
  | none => none

/-- The `JOIN farmers f ON m.farmer_id = f.id` over user-role messages. -/
def userFarmerJoin (db : DB) : List (MessageRow × FarmerRow) :=
  (db.messages.filter (fun m => m.role == "user")).flatMap
    (fun m => (db.farmers.filter (fun f => f.id == m.farmer_id)).map (fun f => (m, f)))

/-- `DISTINCT ON (farmer_id)`: keep the first row of each farmer group
of an already-sorted row list; `seen` is the set of keys already kept. -/
def distinctOnFarmer (seen : List Nat) : List (MessageRow × FarmerRow) → List (MessageRow × FarmerRow)
  | [] => []
  | x :: xs =>
    if x.1.farmer_id ∈ seen then distinctOnFarmer seen xs
    else x :: distinctOnFarmer (x.1.farmer_id :: seen) xs

/-- The `latest_messages` CTE of `get_conversations_for_approval`. -/
def latest_messages (db : DB) : List (MessageRow × FarmerRow) :=
  distinctOnFarmer [] (List.insertionSort latestLex (userFarmerJoin db))

/-- Row-to-entry mapping of the approval queue. -/
def mkApprovalEntry (x : MessageRow × FarmerRow) : ApprovalEntry :=
  { id := x.1.id
    farmer_id := x.1.farmer_id
    farmer_name := displayName x.2.manager_name x.2.manager_last_name
    farmer_phone := pyOr x.2.phone ""
    farmer_location := pyOr x.2.city ""
    farmer_type := "Farm"
    farmer_size := "0.0"
    last_message := truncMsg x.1.message_text
    timestamp := x.1.timestamp }

/-- `get_conversations_for_approval()`: latest user message per farmer,
ordered by timestamp descending, capped at 100 rows; the `approved`
bucket is always empty. -/
def get_conversations_for_approval (db : DB) (fail : Bool) : ApprovalBuckets :=
  if fail then { unapproved := [], approved := [] } else
  { unapproved :=
      ((List.insertionSort queueTsLe (latest_messages db)).take 100).map mkApprovalEntry
    approved := [] }

/-- `get_conversation_details(conversation_id)`: one message joined to
its farmer row. -/
def get_conversation_details (db : DB) (conversation_id : Nat) (fail : Bool) : Option DetailView :=
  if fail then none else
  match db.messages.find? (fun m => m.id == conversation_id) with
  | none => none
  | some m =>
    match db.farmers.find? (fun f => f.id == m.farmer_id) with
    | none => none
    | some f => some
        { id := m.id
          farmer_id := m.farmer_id
          farmer_name := displayName f.manager_name f.manager_last_name
          user_input := if m.role == "user" then m.message_text else some ""
          ava_response := if m.role == "assistant" then m.message_text else some ""
          timestamp := m.timestamp
          approved_status := false }

/-- `health_check()`: true iff the trivial count query succeeds. -/
def health_check (db : DB) (fail : Bool) : Bool :=
  if fail then false else true

end DatabaseOps

namespace DatabaseOps

/-! ### Auxiliary lemmas -/

/-- Over a farmer table with pairwise-distinct primary keys, the
`WHERE id = :farmer_id` lookup finds exactly the matching row. -/
theorem find_farmer_of_mem {l : List FarmerRow} {r : FarmerRow} {fid : Nat}
    (huniq : l.Pairwise (fun a b => a.id ≠ b.id)) (hmem : r ∈ l) (hr : r.id = fid) :
    l.find? (fun f => f.id == fid) = some r := by
  induction l with
  | nil => cases hmem
  | cons x xs ih =>
    rcases List.mem_cons.mp hmem with h | h
    · subst h
      simp [List.find?_cons, hr]
    · have hx : x.id ≠ r.id := (List.pairwise_cons.mp huniq).1 r h
      have hxf : (x.id == fid) = false := by
        simp only [beq_eq_false_iff_ne, ne_eq]
        exact fun hc => hx (hc.trans hr.symm)
      rw [List.find?_cons_of_neg _ (by simp [hxf])]
      exact ih (List.pairwise_cons.mp huniq).2 h

/-! ### Claim theorems -/

/-- C3: every operation of the layer converts a store failure raised
inside its body into its empty sentinel (absent, the empty sequence,
the empty bucket pair, or false) instead of propagating the exception;
in particular `health_check` returns false when the store is
unreachable, and a failed `save_conversation` also leaves the store
unchanged. -/
theorem operations_fail_to_sentinel :
    (∀ db fid, get_farmer_info db fid true = none) ∧
    (∀ db lim, get_all_farmers db lim true = []) ∧
    (∀ db fid, get_farmer_fields db fid true = []) ∧
    (∀ db fid lim, get_recent_conversations db fid lim true = []) ∧
    (∀ db fid data o, o ≠ SaveOutcome.committed →
      save_conversation db fid data o = (db, none)) ∧
    (∀ db name, get_crop_info db name true = none) ∧
    (∀ db, get_conversations_for_approval db true = { unapproved := [], approved := [] }) ∧
    (∀ db cid, get_conversation_details db cid true = none) ∧
    (∀ db, health_check db true = false) := by
  refine ⟨fun _ _ => rfl, fun _ _ => rfl, fun _ _ => rfl, fun _ _ _ => rfl, ?_,
    fun _ _ => rfl, fun _ => rfl, fun _ _ => rfl, fun _ => rfl⟩
  intro db fid data o ho
  cases o with
  | committed => exact absurd rfl ho
  | failFirstInsert => rfl
  | failSecondInsert => rfl
  | failCommit => rfl

/-- A store used by several concrete checks below. -/
def emptyDB : DB :=
  { farmers := [], fields := [], field_crops := [], messages := [], crop_technology := []
    next_id := 1, now := 5 }

/-- Witness for C3 at a concrete store and a concrete failure point. -/
theorem operations_fail_to_sentinel_witness :
    get_farmer_info emptyDB 1 true = none ∧
    save_conversation emptyDB 1 [] SaveOutcome.failCommit = (emptyDB, none) ∧
    health_check emptyDB true = false :=
  ⟨operations_fail_to_sentinel.1 emptyDB 1,
   operations_fail_to_sentinel.2.2.2.2.1 emptyDB 1 [] SaveOutcome.failCommit (by decide),
   operations_fail_to_sentinel.2.2.2.2.2.2.2.2 emptyDB⟩

/-- C1: a committed `save_conversation` appends exactly two message rows
to the store in one atomic state change — a role-`user` row carrying the
payload's question text and a role-`assistant` row carrying its answer
text — and returns the identifier of the assistant row; on a failure at
any point of the body the store is unchanged and the result is absent. -/
theorem save_conversation_atomic (db : DB) (fid : Nat)
    (data : List (String × String)) (o : SaveOutcome) :
    (o = SaveOutcome.committed →
      ∃ u a : MessageRow,
        (save_conversation db fid data o).1.messages = db.messages ++ [u, a] ∧
        u.role = "user" ∧ u.message_text = lookupKey data "question" ∧
        u.farmer_id = fid ∧ u.timestamp = db.now ∧
        a.role = "assistant" ∧ a.message_text = lookupKey data "answer" ∧
        a.farmer_id = fid ∧ a.timestamp = db.now ∧
        (save_conversation db fid data o).2 = some a.id) ∧
    (o ≠ SaveOutcome.committed → save_conversation db fid data o = (db, none)) := by
  constructor
  · intro h
    subst h
    exact ⟨_, _, rfl, rfl, rfl, rfl, rfl, rfl, rfl, rfl, rfl, rfl⟩
  · intro ho
    cases o with
    | committed => exact absurd rfl ho
    | failFirstInsert => rfl
    | failSecondInsert => rfl
    | failCommit => rfl

/-- Conversation payload used by the concrete checks below. -/
def convData : List (String × String) :=
  [("wa_phone_number", "555-0100"), ("question", "How deep to plant?"), ("answer", "Two inches.")]

/-- Witness for C1: the committed case and one failing case at a
concrete store and payload. -/
theorem save_conversation_atomic_witness :
    (∃ u a : MessageRow,
      (save_conversation emptyDB 3 convData SaveOutcome.committed).1.messages =
        emptyDB.messages ++ [u, a] ∧
      u.role = "user" ∧ u.message_text = lookupKey convData "question" ∧
      u.farmer_id = 3 ∧ u.timestamp = emptyDB.now ∧
      a.role = "assistant" ∧ a.message_text = lookupKey convData "answer" ∧
      a.farmer_id = 3 ∧ a.timestamp = emptyDB.now ∧
      (save_conversation emptyDB 3 convData SaveOutcome.committed).2 = some a.id) ∧
    save_conversation emptyDB 3 convData SaveOutcome.failSecondInsert = (emptyDB, none) :=
  ⟨(save_conversation_atomic emptyDB 3 convData SaveOutcome.committed).1 rfl,
   (save_conversation_atomic emptyDB 3 convData SaveOutcome.failSecondInsert).2 (by decide)⟩

/-- C10: both rows inserted by `save_conversation` store the phone read
from the payload's `wa_phone_number` key, falling back to the constant
`"unknown"` when that key is absent — regardless of any other key (such
as `phone`) the payload may carry. -/
theorem save_conversation_phone_key (db : DB) (fid : Nat) (data : List (String × String)) :
    ∃ u a : MessageRow,
      (save_conversation db fid data SaveOutcome.committed).1.messages =
        db.messages ++ [u, a] ∧
      u.phone_number = (lookupKey data "wa_phone_number").getD "unknown" ∧
      a.phone_number = (lookupKey data "wa_phone_number").getD "unknown" ∧
      (lookupKey data "wa_phone_number" = none →
        u.phone_number = "unknown" ∧ a.phone_number = "unknown") := by
  refine ⟨_, _, rfl, rfl, rfl, ?_⟩
  intro h
  constructor <;> simp [h]

/-- Payload that carries the phone only under the key `phone`. -/
def wrongKeyData : List (String × String) :=
  [("phone", "555-0199"), ("question", "Q"), ("answer", "A")]

/-- Witness for C10: with the phone under the key `phone` only, both
stored rows carry `"unknown"`. -/
theorem save_conversation_phone_key_witness :
    ∃ u a : MessageRow,
      (save_conversation emptyDB 4 wrongKeyData SaveOutcome.committed).1.messages =
        emptyDB.messages ++ [u, a] ∧
      u.phone_number = "unknown" ∧ a.phone_number = "unknown" := by
  obtain ⟨u, a, hrows, hu, ha, hnone⟩ := save_conversation_phone_key emptyDB 4 wrongKeyData
  obtain ⟨hu2, ha2⟩ := hnone (by decide)
  exact ⟨u, a, hrows, hu2, ha2⟩

/-- C4: for a farmer id matching a stored row, `get_farmer_info` returns
the row's display fields together with the placeholder values
`total_hectares = 0` and `farmer_type = "Farm"`; for an id matching no
row it returns absent (and, being a total function, never raises). -/
theorem get_farmer_info_model (db : DB) (fid : Nat)
    (huniq : db.farmers.Pairwise (fun a b => a.id ≠ b.id)) :
    (∀ r ∈ db.farmers, r.id = fid →
      get_farmer_info db fid false = some
        { id := fid
          farm_name := r.farm_name
          manager_name := r.manager_name
          manager_last_name := r.manager_last_name
          total_hectares := 0
          farmer_type := "Farm"
          city := r.city
          wa_phone_number := r.wa_phone_number }) ∧
    ((∀ r ∈ db.farmers, r.id ≠ fid) → get_farmer_info db fid false = none) := by
  constructor
  · intro r hmem hid
    have hfind := find_farmer_of_mem huniq hmem hid
    simp [get_farmer_info, hfind, hid]
  · intro hnone
    have hfind : db.farmers.find? (fun f => f.id == fid) = none :=
      List.find?_eq_none.mpr (fun x hx => by simpa using hnone x hx)
    simp [get_farmer_info, hfind]

/-- Store holding the round-trip farmer row of the specification. -/
def gaRow : FarmerRow :=
  { id := 1, farm_name := some "Green Acres", manager_name := some "Jane"
    manager_last_name := some "Doe", email := none, phone := none
    city := some "Springfield", wa_phone_number := some "555-0100" }

/-- Store for the C4 round-trip check. -/
def gaDB : DB :=
  { farmers := [gaRow], fields := [], field_crops := [], messages := []
    crop_technology := [], next_id := 1, now := 0 }

/-- Witness for C4: the round-trip scenario of the specification, plus
the absent case. -/
theorem get_farmer_info_model_witness :
    get_farmer_info gaDB 1 false = some
      { id := 1
        farm_name := some "Green Acres"
        manager_name := some "Jane"
        manager_last_name := some "Doe"
        total_hectares := 0
        farmer_type := "Farm"
        city := some "Springfield"
        wa_phone_number := some "555-0100" } ∧
    get_farmer_info gaDB 2 false = none :=
  ⟨(get_farmer_info_model gaDB 1 (by decide)).1 gaRow (by decide) rfl,
   (get_farmer_info_model gaDB 2 (by decide)).2 (by decide)⟩

end DatabaseOps

namespace DatabaseOps

/-! ### Membership decompositions -/

/-- Every turn of `get_recent_conversations` comes from a stored message
of the requested farmer. -/
theorem mem_recent_conversations {db : DB} {fid lim : Nat} {t : Turn}
    (ht : t ∈ get_recent_conversations db fid lim false) :
    ∃ m, m ∈ db.messages ∧ m.farmer_id = fid ∧ t = mkTurn m := by
  rw [get_recent_conversations, if_neg Bool.false_ne_true] at ht
  obtain ⟨m, hm, rfl⟩ := List.mem_map.mp ht
  have h1 : m ∈ List.insertionSort recentTsLe (db.messages.filter (fun x => x.farmer_id == fid)) :=
    (List.take_sublist lim _).subset hm
  have h2 : m ∈ db.messages.filter (fun x => x.farmer_id == fid) :=
    (List.perm_insertionSort recentTsLe _).subset h1
  have h3 := List.mem_filter.mp h2
  exact ⟨m, h3.1, by simpa using h3.2, rfl⟩

/-- C6: every turn of `list_recent_conversations` and every record of
`get_conversation_details` populates exactly the slot named by the
message role with the message text and leaves the other slot empty. -/
theorem role_splits_slots :
    (∀ db fid lim (t : Turn), t ∈ get_recent_conversations db fid lim false →
      ∃ m ∈ db.messages, m.farmer_id = fid ∧ t.id = m.id ∧ t.timestamp = m.timestamp ∧
        (m.role = "user" → t.user_input = m.message_text ∧ t.ava_response = some "") ∧
        (m.role = "assistant" → t.ava_response = m.message_text ∧ t.user_input = some "")) ∧
    (∀ db cid (d : DetailView), get_conversation_details db cid false = some d →
      ∃ m ∈ db.messages, d.id = m.id ∧ d.timestamp = m.timestamp ∧
        (m.role = "user" → d.user_input = m.message_text ∧ d.ava_response = some "") ∧
        (m.role = "assistant" → d.ava_response = m.message_text ∧ d.user_input = some "")) := by
  constructor
  · intro db fid lim t ht
    obtain ⟨m, hmem, hfid, rfl⟩ := mem_recent_conversations ht
    refine ⟨m, hmem, hfid, rfl, rfl, ?_, ?_⟩
    · intro hrole
      constructor <;>
        simp [mkTurn, hrole, show (("user" : String) == "assistant") = false from rfl]
    · intro hrole
      constructor <;>
        simp [mkTurn, hrole, show (("assistant" : String) == "user") = false from rfl]
  · intro db cid d hd
    rw [get_conversation_details, if_neg Bool.false_ne_true] at hd
    rcases hfm : db.messages.find? (fun m => m.id == cid) with _ | m
    · simp only [hfm] at hd
      exact Option.noConfusion hd
    · simp only [hfm] at hd
      rcases hff : db.farmers.find? (fun f => f.id == m.farmer_id) with _ | f
      · simp only [hff] at hd
        exact Option.noConfusion hd
      · simp only [hff, Option.some.injEq] at hd
        subst hd
        refine ⟨m, List.mem_of_find?_eq_some hfm, rfl, rfl, ?_, ?_⟩
        · intro hrole
          constructor <;>
            simp [hrole, show (("user" : String) == "assistant") = false from rfl]
        · intro hrole
          constructor <;>
            simp [hrole, show (("assistant" : String) == "user") = false from rfl]

/-- Store for the C6 check of the user-role split. -/
def dbTurnU : DB :=
  { farmers := [⟨1, none, none, none, none, none, none, none⟩]
    fields := [], field_crops := []
    messages := [⟨10, 1, "p", some "hello", "user", 2⟩]
    crop_technology := [], next_id := 20, now := 9 }

/-- The one turn returned for `dbTurnU`. -/
def turnU : Turn := mkTurn ⟨10, 1, "p", some "hello", "user", 2⟩

/-- Store for the C6 check of the assistant-role split. -/
def dbTurnA : DB :=
  { farmers := [⟨1, none, none, none, none, none, none, none⟩]
    fields := [], field_crops := []
    messages := [⟨11, 1, "p", some "hi there", "assistant", 3⟩]
    crop_technology := [], next_id := 20, now := 9 }

/-- The detail record returned for message 11 of `dbTurnA`. -/
def detailA : DetailView :=
  { id := 11, farmer_id := 1, farmer_name := "Unknown", user_input := some ""
    ava_response := some "hi there", timestamp := 3, approved_status := false }

/-- Witness for C6: concrete user and assistant messages land in the
expected slots, the other slot holding the empty string. -/
theorem role_splits_slots_witness :
    turnU.user_input = some "hello" ∧ turnU.ava_response = some "" ∧
    detailA.ava_response = some "hi there" ∧ detailA.user_input = some "" := by
  obtain ⟨m, hm, -, -, -, hu, -⟩ := role_splits_slots.1 dbTurnU 1 10 turnU (by decide)
  obtain rfl := List.mem_singleton.mp hm
  obtain ⟨hu1, hu2⟩ := hu rfl
  obtain ⟨m2, hm2, -, -, -, ha⟩ := role_splits_slots.2 dbTurnA 11 detailA (by decide)
  obtain rfl := List.mem_singleton.mp hm2
  obtain ⟨ha1, ha2⟩ := ha rfl
  exact ⟨hu1, hu2, ha1, ha2⟩

/-- Every record of `get_farmer_fields` comes from a stored field of the
requested farmer, either NULL-extended or joined to one crop row. -/
theorem mem_fields_decomp {db : DB} {fid : Nat} {v : FieldView}
    (hv : v ∈ get_farmer_fields db fid false) :
    ∃ f, f ∈ db.fields ∧ f.farmer_id = fid ∧
      (v = mkFieldView f none ∨ ∃ c, v = mkFieldView f (some c)) := by
  rw [get_farmer_fields, if_neg Bool.false_ne_true] at hv
  obtain ⟨f, hf, hvin⟩ := List.mem_flatMap.mp hv
  have hf2 : f ∈ db.fields.filter (fun x => x.farmer_id == fid) :=
    (List.perm_insertionSort fieldNameLe _).subset hf
  have hf3 := List.mem_filter.mp hf2
  refine ⟨f, hf3.1, by simpa using hf3.2, ?_⟩
  rcases hc : activeCrops db f.field_id with _ | ⟨c, cs⟩
  · rw [hc] at hvin
    exact Or.inl (List.mem_singleton.mp hvin)
  · rw [hc] at hvin
    obtain ⟨c2, -, rfl⟩ := List.mem_map.mp hvin
    exact Or.inr ⟨c2, rfl⟩

/-- C7: a field with no active crop-planting row yields a (successful)
record whose crop, variety, planting-date and crop-status fields are all
absent; every returned record traces back to a stored field row, and a
NULL stored size is reported as 0. -/
theorem fields_left_join (db : DB) (fid : Nat) :
    (∀ v ∈ get_farmer_fields db fid false,
      ∃ f ∈ db.fields, f.farmer_id = fid ∧ v.field_id = f.field_id ∧
        v.field_name = f.field_name ∧ (f.field_size = none → v.field_size = 0)) ∧
    (∀ f ∈ db.fields, f.farmer_id = fid →
      (∀ fc ∈ db.field_crops, fc.field_id = f.field_id → fc.status ≠ "active") →
      ∃ v ∈ get_farmer_fields db fid false,
        v.field_id = f.field_id ∧ v.current_crop = none ∧ v.variety = none ∧
        v.planting_date = none ∧ v.crop_status = none ∧
        (f.field_size = none → v.field_size = 0)) := by
  constructor
  · intro v hv
    obtain ⟨f, hf, hfid, hcase⟩ := mem_fields_decomp hv
    rcases hcase with rfl | ⟨c, rfl⟩ <;>
      exact ⟨f, hf, hfid, rfl, rfl, fun h => by simp [mkFieldView, h, pyNumTruthy]⟩
  · intro f hf hfid hno
    have hempty : activeCrops db f.field_id = [] := by
      rw [activeCrops, List.filter_eq_nil_iff]
      intro fc hfc
      simp only [Bool.and_eq_true, beq_iff_eq, not_and]
      exact fun h1 h2 => hno fc hfc h1 h2
    refine ⟨mkFieldView f none, ?_, rfl, rfl, rfl, rfl, rfl,
      fun h => by simp [mkFieldView, h, pyNumTruthy]⟩
    rw [get_farmer_fields, if_neg Bool.false_ne_true]
    apply List.mem_flatMap.mpr
    refine ⟨f, ?_, ?_⟩
    · exact (List.perm_insertionSort fieldNameLe _).mem_iff.mpr
        (List.mem_filter.mpr ⟨hf, by simpa using hfid⟩)
    · rw [hempty]
      exact List.mem_singleton.mpr rfl

/-- Field row with NULL size and no active planting. -/
def bareField : FieldRow := ⟨10, 5, "North Plot", none, none, none⟩

/-- Store for the C7 check: one field, one inactive planting on it, one
active planting on a different field. -/
def dbFields : DB :=
  { farmers := [], fields := [bareField]
    field_crops := [⟨10, "corn", none, none, "harvested"⟩, ⟨99, "wheat", none, none, "active"⟩]
    messages := [], crop_technology := [], next_id := 1, now := 0 }

/-- Witness for C7: the crop-less field produces a record with all crop
attributes absent and size 0. -/
theorem fields_left_join_witness :
    ∃ v ∈ get_farmer_fields dbFields 5 false,
      v.field_id = 10 ∧ v.current_crop = none ∧ v.variety = none ∧
      v.planting_date = none ∧ v.crop_status = none ∧ v.field_size = 0 := by
  obtain ⟨v, hv, h1, h2, h3, h4, h5, h6⟩ :=
    (fields_left_join dbFields 5).2 bareField (by decide) rfl (by decide)
  exact ⟨v, hv, h1, h2, h3, h4, h5, h6 rfl⟩

/-- Elements kept by `DISTINCT ON` come from the input list. -/
theorem mem_of_mem_distinctOnFarmer :
    ∀ {seen : List Nat} {l : List (MessageRow × FarmerRow)} {x},
      x ∈ distinctOnFarmer seen l → x ∈ l := by
  intro seen l
  induction l generalizing seen with
  | nil => intro x hx; simp [distinctOnFarmer] at hx
  | cons y ys ih =>
    intro x hx
    rw [distinctOnFarmer] at hx
    split at hx
    · exact List.mem_cons_of_mem y (ih hx)
    · rcases List.mem_cons.mp hx with rfl | h2
      · exact List.mem_cons_self x ys
      · exact List.mem_cons_of_mem y (ih h2)

/-- Every approval-queue entry comes from a stored user-role message
joined to its farmer row. -/
theorem mem_unapproved_decomp {db : DB} {e : ApprovalEntry}
    (he : e ∈ (get_conversations_for_approval db false).unapproved) :
    ∃ x : MessageRow × FarmerRow, x.1 ∈ db.messages ∧ x.1.role = "user" ∧
      x.2 ∈ db.farmers ∧ x.2.id = x.1.farmer_id ∧ e = mkApprovalEntry x := by
  rw [get_conversations_for_approval, if_neg Bool.false_ne_true] at he
  obtain ⟨x, hx, rfl⟩ := List.mem_map.mp he
  have h1 : x ∈ List.insertionSort queueTsLe (latest_messages db) :=
    (List.take_sublist 100 _).subset hx
  have h2 : x ∈ latest_messages db := (List.perm_insertionSort queueTsLe _).subset h1
  have h3 : x ∈ List.insertionSort latestLex (userFarmerJoin db) :=
    mem_of_mem_distinctOnFarmer h2
  have h4 : x ∈ userFarmerJoin db := (List.perm_insertionSort latestLex _).subset h3
  obtain ⟨m, hm, hx2⟩ := List.mem_flatMap.mp h4
  obtain ⟨f, hf, rfl⟩ := List.mem_map.mp hx2
  have hm2 := List.mem_filter.mp hm
  have hf2 := List.mem_filter.mp hf
  exact ⟨(m, f), hm2.1, by simpa using hm2.2, hf2.1, by simpa using hf2.2, rfl⟩

/-- Behaviour of the queue truncation on a present message text. -/
theorem truncMsg_spec (s : String) :
    (100 < pyLen s → truncMsg (some s) = pySlice s 100 ++ "..." ∧
      pyLen (truncMsg (some s)) ≤ 103) ∧
    (pyLen s ≤ 100 → truncMsg (some s) = s) := by
  constructor
  · intro h
    have hne : s ≠ "" := by
      intro hc
      subst hc
      simp [pyLen] at h
    have hs : pyTruthy (some s) = true := by simp [pyTruthy, hne]
    have hblt : Nat.blt 100 (pyLen s) = true := by simpa [Nat.blt_eq] using h
    have heq : truncMsg (some s) = pySlice s 100 ++ "..." := by
      simp [truncMsg, hs, hblt]
    refine ⟨heq, ?_⟩
    rw [heq]
    show ((pySlice s 100).data ++ ("..." : String).data).length ≤ 103
    rw [List.length_append]
    have h1 : ((pySlice s 100).data).length ≤ 100 := List.length_take_le 100 s.data
    have h2 : (("..." : String).data).length = 3 := rfl
    omega
  · intro h
    have hcond : (pyTruthy (some s) && Nat.blt 100 (pyLen s)) = false := by
      rcases hb : Nat.blt 100 (pyLen s) with _ | _
      · simp
      · rw [Nat.blt_eq] at hb
        omega
    by_cases hne : s = ""
    · subst hne
      rfl
    · have hs : pyTruthy (some s) = true := by simp [pyTruthy, hne]
      rw [truncMsg]
      simp only [Option.getD_some, hcond, Bool.false_eq_true, if_false]
      simp [pyOr, hs]

/-- C5: every approval-queue entry whose source message text exceeds 100
characters carries that text cut to its first 100 characters with a
trailing ellipsis (so at most 103 characters); otherwise it carries the
text unmodified. -/
theorem approval_queue_truncation (db : DB) :
    ∀ e ∈ (get_conversations_for_approval db false).unapproved,
      ∃ m ∈ db.messages, m.role = "user" ∧ e.id = m.id ∧
        e.last_message = truncMsg m.message_text ∧
        ∀ s, m.message_text = some s →
          (100 < pyLen s → e.last_message = pySlice s 100 ++ "..." ∧
            pyLen e.last_message ≤ 103) ∧
          (pyLen s ≤ 100 → e.last_message = s) := by
  intro e he
  obtain ⟨x, hm, hrole, hf, hfid, rfl⟩ := mem_unapproved_decomp he
  refine ⟨x.1, hm, hrole, rfl, rfl, ?_⟩
  intro s hs
  constructor
  · intro hlen
    have hspec := (truncMsg_spec s).1 hlen
    constructor
    · show truncMsg x.1.message_text = _
      rw [hs]
      exact hspec.1
    · show pyLen (truncMsg x.1.message_text) ≤ 103
      rw [hs]
      exact hspec.2
  · intro hlen
    show truncMsg x.1.message_text = s
    rw [hs]
    exact (truncMsg_spec s).2 hlen

/-- A 120-character message text. -/
def longText : String := ⟨List.replicate 120 (Char.ofNat 97)⟩

/-- Long user message of farmer 1. -/
def mLong : MessageRow := ⟨21, 1, "p", some longText, "user", 5⟩

/-- Short user message of farmer 2. -/
def mShort : MessageRow := ⟨22, 2, "p", some "hello", "user", 4⟩

/-- Store for the C5 check. -/
def truncDB : DB :=
  { farmers := [⟨1, none, none, none, none, none, none, none⟩,
                ⟨2, none, none, none, none, none, none, none⟩]
    fields := [], field_crops := [], messages := [mLong, mShort]
    crop_technology := [], next_id := 30, now := 9 }

/-- The queue entry of the long message. -/
def eLong : ApprovalEntry := mkApprovalEntry (mLong, ⟨1, none, none, none, none, none, none, none⟩)

/-- The queue entry of the short message. -/
def eShort : ApprovalEntry := mkApprovalEntry (mShort, ⟨2, none, none, none, none, none, none, none⟩)

set_option maxRecDepth 40000 in
/-- Witness for C5: the 120-character text is cut to 100 plus ellipsis
and the short text is passed through unmodified. -/
theorem approval_queue_truncation_witness :
    eLong.last_message = pySlice longText 100 ++ "..." ∧ pyLen eLong.last_message ≤ 103 ∧
    eShort.last_message = "hello" := by
  obtain ⟨m, hm, -, hid, -, hspec⟩ := approval_queue_truncation truncDB eLong (by decide)
  rcases List.mem_cons.mp hm with rfl | hm2
  · obtain ⟨e1, e2⟩ := (hspec longText rfl).1 (by decide)
    obtain ⟨m2, hm2, -, hid2, -, hspec2⟩ := approval_queue_truncation truncDB eShort (by decide)
    rcases List.mem_cons.mp hm2 with rfl | hm3
    · exact absurd hid2 (by decide)
    · obtain rfl := List.mem_singleton.mp hm3
      exact ⟨e1, e2, (hspec2 "hello" rfl).2 (by decide)⟩
  · obtain rfl := List.mem_singleton.mp hm2
    exact absurd hid (by decide)

end DatabaseOps

namespace DatabaseOps

/-! ### Totality and transitivity of the ORDER BY relations -/

/-- Code-point lexicographic comparison is total. -/
theorem lexLeChars_total : ∀ a b : List Char, lexLeChars a b = true ∨ lexLeChars b a = true := by
  intro a
  induction a with
  | nil => intro b; exact Or.inl rfl
  | cons x xs ih =>
    intro b
    cases b with
    | nil => exact Or.inr rfl
    | cons y ys =>
      rcases Nat.lt_trichotomy x.toNat y.toNat with h | h | h
      · left
        simp [lexLeChars, h]
      · rcases ih ys with h2 | h2
        · left
          simp [lexLeChars, h, Nat.lt_irrefl, h2]
        · right
          simp [lexLeChars, h.symm, Nat.lt_irrefl, h2]
      · right
        simp [lexLeChars, h]

/-- Code-point lexicographic comparison is transitive. -/
theorem lexLeChars_trans :
    ∀ a b c : List Char, lexLeChars a b = true → lexLeChars b c = true →
      lexLeChars a c = true := by
  intro a
  induction a with
  | nil => intro b c _ _; rfl
  | cons x xs ih =>
    intro b c hab hbc
    cases b with
    | nil => simp [lexLeChars] at hab
    | cons y ys =>
      cases c with
      | nil => simp [lexLeChars] at hbc
      | cons z zs =>
        simp only [lexLeChars] at hab hbc ⊢
        split_ifs at hab hbc ⊢ <;>
          first
            | rfl
            | exact absurd hab Bool.false_ne_true
            | exact absurd hbc Bool.false_ne_true
            | omega
            | exact ih ys zs hab hbc

instance : IsTotal String strLe := ⟨fun a b => lexLeChars_total a.data b.data⟩

instance : IsTrans String strLe := ⟨fun a b c => lexLeChars_trans a.data b.data c.data⟩

/-- The NULLS LAST key order is total. -/
theorem nullsLastLe_total : ∀ a b : Option String, nullsLastLe a b ∨ nullsLastLe b a := by
  intro a b
  cases a <;> cases b <;> simp [nullsLastLe] <;> exact lexLeChars_total _ _

/-- The NULLS LAST key order is transitive. -/
theorem nullsLastLe_trans :
    ∀ a b c : Option String, nullsLastLe a b → nullsLastLe b c → nullsLastLe a c := by
  intro a b c hab hbc
  cases a <;> cases b <;> cases c <;> simp [nullsLastLe] at hab hbc ⊢ <;>
    exact lexLeChars_trans _ _ _ hab hbc

instance : IsTotal FarmerRow farmNameLe := ⟨fun a b => nullsLastLe_total _ _⟩

instance : IsTrans FarmerRow farmNameLe := ⟨fun _ _ _ hab hbc => nullsLastLe_trans _ _ _ hab hbc⟩

/-- The approval-queue CTE key order is total. -/
theorem latestLex_total : ∀ a b : MessageRow × FarmerRow, latestLex a b ∨ latestLex b a := by
  intro a b
  unfold latestLex
  rcases Nat.lt_trichotomy a.1.farmer_id b.1.farmer_id with h | h | h
  · exact Or.inl (Or.inl h)
  · rcases Nat.le_total b.1.timestamp a.1.timestamp with h2 | h2
    · exact Or.inl (Or.inr ⟨h, h2⟩)
    · exact Or.inr (Or.inr ⟨h.symm, h2⟩)
  · exact Or.inr (Or.inl h)

/-- The approval-queue CTE key order is transitive. -/
theorem latestLex_trans :
    ∀ a b c : MessageRow × FarmerRow, latestLex a b → latestLex b c → latestLex a c := by
  intro a b c hab hbc
  unfold latestLex at hab hbc ⊢
  rcases hab with h1 | ⟨h1, h2⟩ <;> rcases hbc with h3 | ⟨h3, h4⟩
  · exact Or.inl (Nat.lt_trans h1 h3)
  · exact Or.inl (h3 ▸ h1)
  · exact Or.inl (h1 ▸ h3)
  · exact Or.inr ⟨h1.trans h3, Nat.le_trans h4 h2⟩

instance : IsTotal (MessageRow × FarmerRow) latestLex := ⟨latestLex_total⟩

instance : IsTrans (MessageRow × FarmerRow) latestLex :=
  ⟨fun _ _ _ hab hbc => latestLex_trans _ _ _ hab hbc⟩

/-! ### C8 and C9 -/

/-- Store with a named farm sorting before a NULL-named farm. -/
def dbNullName : DB :=
  { farmers := [⟨1, some "Zeta", none, none, none, none, none, none⟩,
                ⟨2, none, none, none, none, none, none, none⟩]
    fields := [], field_crops := [], messages := [], crop_technology := []
    next_id := 1, now := 0 }

set_option maxRecDepth 20000 in
/-- Counterexample to C8 as stated: with a NULL farm name in the store
(sorted last, displayed as the substitute `"Unknown Farm"`), the
sequence of farm names over the returned entries is not non-decreasing. -/
theorem farmers_order_counterexample :
    (get_all_farmers dbNullName 10 false).map (fun s => s.farm_name) = ["Zeta", "Unknown Farm"] ∧
    ¬ List.Pairwise strLe ((get_all_farmers dbNullName 10 false).map (fun s => s.farm_name)) := by
  constructor
  · decide
  · decide

/-- C8 (amended): `list_farmers(limit=k)` returns at most `k` entries,
the selected rows are sorted by the stored farm-name key (NULLs last),
and whenever every stored farm name is present and non-empty the
sequence of displayed farm names is non-decreasing. -/
theorem farmers_limit_and_order (db : DB) (k : Nat) :
    (get_all_farmers db k false).length ≤ k ∧
    List.Pairwise farmNameLe (selectedFarmers db k) ∧
    ((∀ r ∈ db.farmers, pyTruthy r.farm_name = true) →
      List.Pairwise strLe ((get_all_farmers db k false).map (fun s => s.farm_name))) := by
  have hsel : List.Pairwise farmNameLe (selectedFarmers db k) :=
    List.Pairwise.sublist (List.take_sublist k _)
      (List.sorted_insertionSort farmNameLe db.farmers)
  refine ⟨?_, hsel, ?_⟩
  · rw [get_all_farmers, if_neg Bool.false_ne_true, List.length_map]
    exact List.length_take_le k _
  · intro hall
    rw [get_all_farmers, if_neg Bool.false_ne_true, List.map_map, List.pairwise_map]
    refine hsel.imp_of_mem ?_
    intro a b ha hb hr
    have ha2 : a ∈ db.farmers :=
      (List.perm_insertionSort farmNameLe _).subset ((List.take_sublist k _).subset ha)
    have hb2 : b ∈ db.farmers :=
      (List.perm_insertionSort farmNameLe _).subset ((List.take_sublist k _).subset hb)
    have hta := hall a ha2
    have htb := hall b hb2
    rcases hfa : a.farm_name with _ | sa
    · rw [hfa] at hta
      simp [pyTruthy] at hta
    rcases hfb : b.farm_name with _ | sb
    · rw [hfb] at htb
      simp [pyTruthy] at htb
    rw [hfa] at hta
    rw [hfb] at htb
    have hr2 : strLe sa sb := by
      rw [farmNameLe, hfa, hfb] at hr
      exact hr
    have hea : (mkFarmerSummary a).farm_name = sa := by
      simp [mkFarmerSummary, pyOr, hfa, hta]
    have heb : (mkFarmerSummary b).farm_name = sb := by
      simp [mkFarmerSummary, pyOr, hfb, htb]
    show strLe (mkFarmerSummary a).farm_name (mkFarmerSummary b).farm_name
    rw [hea, heb]
    exact hr2

/-- Store with two truthy farm names, listed out of order. -/
def dbTwoFarms : DB :=
  { farmers := [⟨1, some "Beta", none, none, none, none, none, none⟩,
                ⟨2, some "Alpha", none, none, none, none, none, none⟩]
    fields := [], field_crops := [], messages := [], crop_technology := []
    next_id := 1, now := 0 }

set_option maxRecDepth 20000 in
/-- Witness for C8 (amended) at a concrete store with all farm names
present: the limit is respected and display names are sorted. -/
theorem farmers_limit_and_order_witness :
    (get_all_farmers dbTwoFarms 1 false).length ≤ 1 ∧
    List.Pairwise strLe ((get_all_farmers dbTwoFarms 1 false).map (fun s => s.farm_name)) :=
  ⟨(farmers_limit_and_order dbTwoFarms 1).1,
   (farmers_limit_and_order dbTwoFarms 1).2.2 (by decide)⟩

/-- Store whose one farmer has empty-string manager first name and
empty-string primary phone. -/
def dbEmptyParts : DB :=
  { farmers := [⟨1, some "F", some "", some "Doe", none, some "", none, some "123"⟩]
    fields := [], field_crops := [], messages := [], crop_technology := []
    next_id := 1, now := 0 }

set_option maxRecDepth 20000 in
/-- Counterexample to C9 as stated: with both name parts present (one of
them the empty string), the display name is not the trimmed join but the
fallback `"Unknown"`; with the primary phone present (empty string), the
phone is not the primary phone but the secondary one. -/
theorem farmer_summary_counterexample :
    (get_all_farmers dbEmptyParts 10 false).map (fun s => (s.name, s.phone)) =
      [("Unknown", "123")] ∧
    pyStrip (("" : String) ++ " " ++ "Doe") = "Doe" ∧
    ("Unknown" : String) ≠ "Doe" ∧
    ("123" : String) ≠ "" := by
  refine ⟨by decide, by decide, by decide, by decide⟩

/-- C9 (amended): each summary's display name is the space-joined,
whitespace-trimmed manager name when both parts are present and
non-empty, else `"Unknown"`; its phone is the primary phone when
present and non-empty, else the secondary phone when present and
non-empty, else the empty string. -/
theorem farmer_summary_name_phone (db : DB) (k : Nat) :
    ∀ s ∈ get_all_farmers db k false,
      ∃ r ∈ db.farmers, s.id = r.id ∧
        ((pyTruthy r.manager_name && pyTruthy r.manager_last_name) = true →
          s.name = pyStrip ((r.manager_name.getD "") ++ " " ++ (r.manager_last_name.getD ""))) ∧
        ((pyTruthy r.manager_name && pyTruthy r.manager_last_name) = false →
          s.name = "Unknown") ∧
        (pyTruthy r.phone = true → s.phone = r.phone.getD "") ∧
        (pyTruthy r.phone = false → pyTruthy r.wa_phone_number = true →
          s.phone = r.wa_phone_number.getD "") ∧
        (pyTruthy r.phone = false → pyTruthy r.wa_phone_number = false → s.phone = "") := by
  intro s hs
  rw [get_all_farmers, if_neg Bool.false_ne_true] at hs
  obtain ⟨r, hr, rfl⟩ := List.mem_map.mp hs
  have hr2 : r ∈ db.farmers :=
    (List.perm_insertionSort farmNameLe _).subset ((List.take_sublist k _).subset hr)
  refine ⟨r, hr2, rfl, ?_, ?_, ?_, ?_, ?_⟩
  · intro h
    simp [mkFarmerSummary, displayName, h]
  · intro h
    simp [mkFarmerSummary, displayName, h]
  · intro h
    simp [mkFarmerSummary, h]
  · intro h1 h2
    simp [mkFarmerSummary, pyOr, h1, h2]
  · intro h1 h2
    simp [mkFarmerSummary, pyOr, h1, h2]

/-- Row for the C9 amended-claim check. -/
def rowJane : FarmerRow := ⟨2, some "G", some "Jane", some "Doe", none, none, none, some "555"⟩

/-- Store for the C9 amended-claim check. -/
def dbJane : DB :=
  { farmers := [rowJane], fields := [], field_crops := [], messages := []
    crop_technology := [], next_id := 1, now := 0 }

set_option maxRecDepth 20000 in
/-- Witness for C9 (amended): non-empty name parts are joined and the
phone falls back to the secondary field when the primary is NULL. -/
theorem farmer_summary_name_phone_witness :
    (mkFarmerSummary rowJane).name = "Jane Doe" ∧ (mkFarmerSummary rowJane).phone = "555" := by
  obtain ⟨r, hr, -, h1, -, -, h4, -⟩ :=
    farmer_summary_name_phone dbJane 10 (mkFarmerSummary rowJane) (by decide)
  obtain rfl := List.mem_singleton.mp hr
  constructor
  · rw [h1 (by decide)]
    decide
  · rw [h4 (by decide) (by decide)]
    decide

end DatabaseOps

namespace DatabaseOps

/-! ### DISTINCT ON lemmas for the approval queue -/

/-- The rows kept by `DISTINCT ON` carry pairwise-distinct farmer ids,
none of them in the already-seen set. -/
theorem distinctOnFarmer_pairwise :
    ∀ (seen : List Nat) (l : List (MessageRow × FarmerRow)),
      (distinctOnFarmer seen l).Pairwise (fun a b => a.1.farmer_id ≠ b.1.farmer_id) ∧
      ∀ x ∈ distinctOnFarmer seen l, x.1.farmer_id ∉ seen := by
  intro seen l
  induction l generalizing seen with
  | nil => exact ⟨List.Pairwise.nil, by simp [distinctOnFarmer]⟩
  | cons y ys ih =>
    rw [distinctOnFarmer]
    split
    · exact ih seen
    · rename_i hnot
      obtain ⟨hp, hs⟩ := ih (y.1.farmer_id :: seen)
      constructor
      · refine List.pairwise_cons.mpr ⟨?_, hp⟩
        intro z hz heq
        exact hs z hz (heq ▸ List.mem_cons_self _ _)
      · intro x hx
        rcases List.mem_cons.mp hx with rfl | hx2
        · exact hnot
        · exact fun hmem => hs x hx2 (List.mem_cons_of_mem _ hmem)

/-- Every farmer id occurring in the input (and not already seen) is
represented among the rows kept by `DISTINCT ON`. -/
theorem distinctOnFarmer_covers :
    ∀ (seen : List Nat) (l : List (MessageRow × FarmerRow)) (x : MessageRow × FarmerRow),
      x ∈ l → x.1.farmer_id ∉ seen →
      ∃ y ∈ distinctOnFarmer seen l, y.1.farmer_id = x.1.farmer_id := by
  intro seen l
  induction l generalizing seen with
  | nil => intro x hx; cases hx
  | cons z zs ih =>
    intro x hx hnot
    rw [distinctOnFarmer]
    split
    · rename_i hz
      rcases List.mem_cons.mp hx with rfl | hx2
      · exact absurd hz hnot
      · exact ih seen x hx2 hnot
    · rename_i hz
      rcases List.mem_cons.mp hx with rfl | hx2
      · exact ⟨x, List.mem_cons_self _ _, rfl⟩
      · by_cases hfe : x.1.farmer_id = z.1.farmer_id
        · exact ⟨z, List.mem_cons_self _ _, hfe.symm⟩
        · obtain ⟨y, hy, he⟩ := ih (z.1.farmer_id :: seen) x hx2 (by
            intro hmem
            rcases List.mem_cons.mp hmem with h | h
            · exact hfe h
            · exact hnot h)
          exact ⟨y, List.mem_cons_of_mem _ hy, he⟩

/-- When the input rows are sorted so that within a farmer group the
timestamps are non-increasing, the row kept for a farmer has the largest
timestamp of its group. -/
theorem distinctOnFarmer_max :
    ∀ (seen : List Nat) (l : List (MessageRow × FarmerRow)),
      l.Pairwise (fun a b => a.1.farmer_id = b.1.farmer_id → b.1.timestamp ≤ a.1.timestamp) →
      ∀ y ∈ distinctOnFarmer seen l, ∀ x ∈ l,
        x.1.farmer_id = y.1.farmer_id → x.1.timestamp ≤ y.1.timestamp := by
  intro seen l
  induction l generalizing seen with
  | nil =>
    intro _ y hy
    simp [distinctOnFarmer] at hy
  | cons z zs ih =>
    intro hpw y hy x hx hfe
    obtain ⟨hhead, htail⟩ := List.pairwise_cons.mp hpw
    rw [distinctOnFarmer] at hy
    split at hy
    · rename_i hzin
      rcases List.mem_cons.mp hx with rfl | hx2
      · have hys := (distinctOnFarmer_pairwise seen zs).2 y hy
        exact absurd (hfe ▸ hzin) hys
      · exact ih seen htail y hy x hx2 hfe
    · rename_i hzout
      rcases List.mem_cons.mp hy with rfl | hy2
      · rcases List.mem_cons.mp hx with rfl | hx2
        · exact Nat.le_refl _
        · exact hhead x hx2 hfe.symm
      · rcases List.mem_cons.mp hx with rfl | hx2
        · have hys := (distinctOnFarmer_pairwise (x.1.farmer_id :: seen) zs).2 y hy2
          exact absurd (hfe ▸ List.mem_cons_self _ _) hys
        · exact ih (z.1.farmer_id :: seen) htail y hy2 x hx2 hfe

/-- Decomposition of membership in the user-message/farmer join. -/
theorem mem_userFarmerJoin {db : DB} {x : MessageRow × FarmerRow}
    (hx : x ∈ userFarmerJoin db) :
    x.1 ∈ db.messages ∧ x.1.role = "user" ∧ x.2 ∈ db.farmers ∧ x.2.id = x.1.farmer_id := by
  obtain ⟨m, hm, hx2⟩ := List.mem_flatMap.mp hx
  obtain ⟨f, hf, rfl⟩ := List.mem_map.mp hx2
  have hm2 := List.mem_filter.mp hm
  have hf2 := List.mem_filter.mp hf
  exact ⟨hm2.1, by simpa using hm2.2, hf2.1, by simpa using hf2.2⟩

/-- Construction of membership in the user-message/farmer join. -/
theorem mem_userFarmerJoin_intro {db : DB} {m : MessageRow} {f : FarmerRow}
    (hm : m ∈ db.messages) (hrole : m.role = "user") (hf : f ∈ db.farmers)
    (hid : m.farmer_id = f.id) : (m, f) ∈ userFarmerJoin db := by
  rw [userFarmerJoin]
  apply List.mem_flatMap.mpr
  refine ⟨m, List.mem_filter.mpr ⟨hm, by simpa using hrole⟩, ?_⟩
  exact List.mem_map.mpr ⟨f, List.mem_filter.mpr ⟨hf, by simpa using hid.symm⟩, rfl⟩

/-- C2 (amended): the approval queue never carries two entries with the
same farmer id; and — provided at most 100 farmers have user-role
messages, since the query caps its result at 100 rows — every stored
farmer with at least one user-role message contributes an entry, built
from a timestamp-maximal user-role message of that farmer. -/
theorem approval_queue_per_farmer (db : DB) :
    List.Pairwise (fun a b => a.farmer_id ≠ b.farmer_id)
      ((get_conversations_for_approval db false).unapproved) ∧
    ((latest_messages db).length ≤ 100 →
      ∀ f ∈ db.farmers, ∀ m ∈ db.messages, m.role = "user" → m.farmer_id = f.id →
        ∃ e ∈ (get_conversations_for_approval db false).unapproved,
          e.farmer_id = f.id ∧
          ∃ m0 ∈ db.messages, m0.role = "user" ∧ m0.farmer_id = f.id ∧
            e.id = m0.id ∧ e.last_message = truncMsg m0.message_text ∧
            e.timestamp = m0.timestamp ∧
            ∀ mp ∈ db.messages, mp.role = "user" → mp.farmer_id = f.id →
              mp.timestamp ≤ m0.timestamp) := by
  constructor
  · rw [get_conversations_for_approval, if_neg Bool.false_ne_true]
    have h1 : (latest_messages db).Pairwise (fun a b => a.1.farmer_id ≠ b.1.farmer_id) :=
      (distinctOnFarmer_pairwise [] _).1
    have h2 : (List.insertionSort queueTsLe (latest_messages db)).Pairwise
        (fun a b => a.1.farmer_id ≠ b.1.farmer_id) :=
      ((List.perm_insertionSort queueTsLe _).pairwise_iff (fun h => Ne.symm h)).mpr h1
    have h3 := List.Pairwise.sublist (List.take_sublist 100 _) h2
    exact List.pairwise_map.mpr h3
  · intro h100 f hf m hm hrole hmf
    have hjoin : (m, f) ∈ userFarmerJoin db := mem_userFarmerJoin_intro hm hrole hf hmf
    have hsortmem : (m, f) ∈ List.insertionSort latestLex (userFarmerJoin db) :=
      (List.perm_insertionSort latestLex _).mem_iff.mpr hjoin
    obtain ⟨y, hy, hyfid⟩ := distinctOnFarmer_covers [] _ _ hsortmem (by simp)
    have hpw : (List.insertionSort latestLex (userFarmerJoin db)).Pairwise
        (fun a b => a.1.farmer_id = b.1.farmer_id → b.1.timestamp ≤ a.1.timestamp) := by
      refine (List.sorted_insertionSort latestLex _).imp ?_
      intro a b hab heq
      rcases hab with h | ⟨-, h⟩
      · exact absurd heq (Nat.ne_of_lt h)
      · exact h
    have hmax := distinctOnFarmer_max [] _ hpw y hy
    have htake : (List.insertionSort queueTsLe (latest_messages db)).take 100 =
        List.insertionSort queueTsLe (latest_messages db) := by
      apply List.take_of_length_le
      rw [List.length_insertionSort]
      exact h100
    have hymem : y ∈ (List.insertionSort queueTsLe (latest_messages db)).take 100 := by
      rw [htake]
      exact (List.perm_insertionSort queueTsLe _).mem_iff.mpr hy
    have hydec := mem_userFarmerJoin
      ((List.perm_insertionSort latestLex _).subset (mem_of_mem_distinctOnFarmer hy))
    refine ⟨mkApprovalEntry y, ?_, ?_, y.1, hydec.1, hydec.2.1, ?_, rfl, rfl, rfl, ?_⟩
    · rw [get_conversations_for_approval, if_neg Bool.false_ne_true]
      exact List.mem_map.mpr ⟨y, hymem, rfl⟩
    · show y.1.farmer_id = f.id
      rw [hyfid]
      exact hmf
    · show y.1.farmer_id = f.id
      rw [hyfid]
      exact hmf
    · intro mp hmp hmprole hmpfid
      have hjoin2 : (mp, f) ∈ userFarmerJoin db :=
        mem_userFarmerJoin_intro hmp hmprole hf hmpfid
      have hsort2 : (mp, f) ∈ List.insertionSort latestLex (userFarmerJoin db) :=
        (List.perm_insertionSort latestLex _).mem_iff.mpr hjoin2
      exact hmax (mp, f) hsort2 (by rw [hyfid] at *; rw [hmpfid, hmf])

end DatabaseOps

namespace DatabaseOps

/-- Farmer row number `i` of the large store. -/
def qFarmer (i : Nat) : FarmerRow := ⟨i, none, none, none, none, none, none, none⟩

/-- User message of farmer `i`, with timestamp `i`. -/
def qMessage (i : Nat) : MessageRow := ⟨1000 + i, i, "p", none, "user", i⟩

/-- Store with 101 farmers, each with exactly one user-role message. -/
def bigDB : DB :=
  { farmers := (List.range 101).map qFarmer
    fields := [], field_crops := []
    messages := (List.range 101).map qMessage
    crop_technology := [], next_id := 2000, now := 500 }

set_option maxRecDepth 100000 in
/-- Counterexample to C2 as stated: with 101 farmers each holding one
user-role message, the query's LIMIT 100 drops the oldest entry, so
farmer 0 has a user-role message yet contributes no entry at all. -/
theorem approval_queue_counterexample :
    (∃ m ∈ bigDB.messages, m.role = "user" ∧ m.farmer_id = 0) ∧
    (∃ f ∈ bigDB.farmers, f.id = 0) ∧
    (∀ e ∈ (get_conversations_for_approval bigDB false).unapproved, e.farmer_id ≠ 0) := by
  refine ⟨?_, ?_, ?_⟩
  · decide
  · decide
  · decide

/-- Farmer of the C2 witness store. -/
def wFarmer : FarmerRow := ⟨7, none, none, none, none, none, none, none⟩

/-- Older user message of farmer 7. -/
def wOld : MessageRow := ⟨41, 7, "p", some "older question", "user", 1⟩

/-- Newer user message of farmer 7. -/
def wNew : MessageRow := ⟨42, 7, "p", some "newer question", "user", 5⟩

/-- Store for the C2 witness: one farmer, two user messages. -/
def wDB : DB :=
  { farmers := [wFarmer], fields := [], field_crops := []
    messages := [wOld, wNew], crop_technology := [], next_id := 50, now := 9 }

set_option maxRecDepth 20000 in
/-- Witness for C2 (amended): in a store with one farmer and two user
messages, the farmer contributes an entry built from a
timestamp-maximal user message. -/
theorem approval_queue_per_farmer_witness :
    ∃ e ∈ (get_conversations_for_approval wDB false).unapproved,
      e.farmer_id = 7 ∧
      ∃ m0 ∈ wDB.messages, m0.role = "user" ∧ m0.farmer_id = 7 ∧
        e.id = m0.id ∧ e.last_message = truncMsg m0.message_text ∧
        e.timestamp = m0.timestamp ∧
        ∀ mp ∈ wDB.messages, mp.role = "user" → mp.farmer_id = 7 →
          mp.timestamp ≤ m0.timestamp :=
  (approval_queue_per_farmer wDB).2 (by decide) wFarmer (by decide) wNew (by decide) rfl rfl

end DatabaseOps
